import Mathlib

/-!
Verification development for the on-device AI generation core
(Swift bridge `ai.swift` and TypeScript layer `apple-ai.ts`).

The definitions below are a shallow embedding of the repository's
conversation→transcript compilation, mode dispatch, streaming coordinator,
and tool-call bridge callbacks.  JSON decoding performed by the external
platform libraries (Foundation `JSONSerialization` / JS `JSON.parse`) is
modelled by an executable parser for the JSON subset the code exchanges.
-/

namespace AppleOnDeviceAI

/-- JSON values as exchanged between the JS layer and the Swift bridge
(objects keep field order; numbers restricted to integers, the only
numeric shape the embedded witnesses need). -/
inductive Json where
  | null : Json
  | bool (b : Bool) : Json
  | num (n : Int) : Json
  | str (s : String) : Json
  | arr (elems : List Json) : Json
  | obj (fields : List (String × Json)) : Json
deriving Inhabited

/-- Field lookup on a JSON object (`dict["key"]` / `call["key"]` in the source);
yields `none` on non-objects, like a failed Swift `as?` cast chain. -/
def jsonField (j : Json) (key : String) : Option Json :=
  match j with
  | .obj fields => (fields.find? (fun p => p.1 = key)).map Prod.snd
  | _ => none

/-- `as? String` on a JSON value. -/
def asString : Option Json → Option String
  | some (.str s) => some s
  | _ => none

/-- Whether a JSON value is an object (`as? [String: Any]` succeeds). -/
def isObj : Json → Bool
  | .obj _ => true
  | _ => false

-- ## JSON text parsing (model of Foundation JSONSerialization / JS JSON.parse)

/-- Skip JSON whitespace. -/
def skipWs : List Char → List Char
  | c :: cs => if c = ' ' ∨ c = '\n' ∨ c = '\t' ∨ c = '\r' then skipWs cs else c :: cs
  | [] => []

/-- Parse the body of a JSON string after the opening quote, with a
reversed accumulator.  Supports the escapes the repository's payloads use. -/
def parseStringAux : List Char → List Char → Option (String × List Char)
  | [], _ => none
  | c :: cs, acc =>
    if c = '"' then some (String.mk acc.reverse, cs)
    else if c = '\\' then
      match cs with
      | '"' :: cs2 => parseStringAux cs2 ('"' :: acc)
      | '\\' :: cs2 => parseStringAux cs2 ('\\' :: acc)
      | 'n' :: cs2 => parseStringAux cs2 ('\n' :: acc)
      | 't' :: cs2 => parseStringAux cs2 ('\t' :: acc)
      | _ => none
    else parseStringAux cs (c :: acc)

/-- Digits to a natural number. -/
def natOfDigits (ds : List Char) : Nat :=
  ds.foldl (fun a c => a * 10 + (c.toNat - '0'.toNat)) 0

/-- Parse an integer JSON number (fractions/exponents are outside the
subset the code exchanges and make the parse fail). -/
def parseNumber (cs : List Char) : Option (Int × List Char) :=
  let negAndRest : Bool × List Char :=
    match cs with
    | '-' :: r => (true, r)
    | _ => (false, cs)
  let ds := negAndRest.2.takeWhile Char.isDigit
  let rest := negAndRest.2.dropWhile Char.isDigit
  if ds = [] then none
  else
    match rest with
    | '.' :: _ => none
    | 'e' :: _ => none
    | 'E' :: _ => none
    | _ =>
      let n : Int := Int.ofNat (natOfDigits ds)
      some (if negAndRest.1 then -n else n, rest)

/-- Does the input start with the given literal? Returns the remainder. -/
def stripLit : List Char → List Char → Option (List Char)
  | [], cs => some cs
  | l :: ls, c :: cs => if c = l then stripLit ls cs else none
  | _ :: _, [] => none

mutual

/-- Fuel-bounded recursive-descent JSON value parser. -/
def parseValueAux : Nat → List Char → Option (Json × List Char)
  | 0, _ => none
  | fuel + 1, cs =>
    match skipWs cs with
    | [] => none
    | c :: rest =>
      if c = '"' then
        (parseStringAux rest []).map (fun p => (Json.str p.1, p.2))
      else if c = Char.ofNat 123 then
        match skipWs rest with
        | d :: r2 =>
          if d = Char.ofNat 125 then some (Json.obj [], r2)
          else parseMembersAux fuel (d :: r2) []
        | [] => none
      else if c = '[' then
        match skipWs rest with
        | d :: r2 =>
          if d = ']' then some (Json.arr [], r2)
          else parseItemsAux fuel (d :: r2) []
        | [] => none
      else if c = 't' then
        (stripLit ['t', 'r', 'u', 'e'] (c :: rest)).map (fun r => (Json.bool true, r))
      else if c = 'f' then
        (stripLit ['f', 'a', 'l', 's', 'e'] (c :: rest)).map (fun r => (Json.bool false, r))
      else if c = 'n' then
        (stripLit ['n', 'u', 'l', 'l'] (c :: rest)).map (fun r => (Json.null, r))
      else
        (parseNumber (c :: rest)).map (fun p => (Json.num p.1, p.2))

/-- Parse `"key": value` members of an object, accumulator reversed. -/
def parseMembersAux : Nat → List Char → List (String × Json) → Option (Json × List Char)
  | 0, _, _ => none
  | fuel + 1, cs, acc =>
    match skipWs cs with
    | '"' :: rest =>
      match parseStringAux rest [] with
      | none => none
      | some (key, afterKey) =>
        match skipWs afterKey with
        | ':' :: afterColon =>
          match parseValueAux fuel afterColon with
          | none => none
          | some (v, afterVal) =>
            match skipWs afterVal with
            | ',' :: next => parseMembersAux fuel next ((key, v) :: acc)
            | d :: next =>
              if d = Char.ofNat 125 then some (Json.obj ((key, v) :: acc).reverse, next)
              else none
            | [] => none
        | _ => none
    | _ => none

/-- Parse comma-separated array items, accumulator reversed. -/
def parseItemsAux : Nat → List Char → List Json → Option (Json × List Char)
  | 0, _, _ => none
  | fuel + 1, cs, acc =>
    match parseValueAux fuel cs with
    | none => none
    | some (v, afterVal) =>
      match skipWs afterVal with
      | ',' :: next => parseItemsAux fuel next (v :: acc)
      | ']' :: next => some (Json.arr (v :: acc).reverse, next)
      | _ => none

end

/-- Parse a complete JSON document (must consume all input). -/
def parseJson (s : String) : Option Json :=
  match parseValueAux (4 * s.length + 8) s.data with
  | some (v, rest) => if skipWs rest = [] then some v else none
  | none => none

-- ## JSON serialization (model of JSON.stringify / JSONSerialization.data)

/-- Escape a string for JSON output. -/
def escapeJsonString (s : String) : String :=
  String.mk (s.data.foldr (fun c acc =>
    if c = '"' then '\\' :: '"' :: acc
    else if c = '\\' then '\\' :: '\\' :: acc
    else if c = '\n' then '\\' :: 'n' :: acc
    else c :: acc) [])

mutual

/-- Serialize a JSON value to text. -/
def serializeJson : Json → String
  | .null => "null"
  | .bool true => "true"
  | .bool false => "false"
  | .num n => toString n
  | .str s => "\"" ++ escapeJsonString s ++ "\""
  | .arr elems => "[" ++ serializeElems elems ++ "]"
  | .obj fields => "\x7b" ++ serializeFields fields ++ "\x7d"

/-- Serialize array elements, comma separated. -/
def serializeElems : List Json → String
  | [] => ""
  | [x] => serializeJson x
  | x :: y :: rest => serializeJson x ++ "," ++ serializeElems (y :: rest)

/-- Serialize object fields, comma separated. -/
def serializeFields : List (String × Json) → String
  | [] => ""
  | [(k, v)] => "\"" ++ escapeJsonString k ++ "\":" ++ serializeJson v
  | (k, v) :: f :: rest =>
    "\"" ++ escapeJsonString k ++ "\":" ++ serializeJson v ++ "," ++ serializeFields (f :: rest)

end

-- ## Data model: messages and transcript entries (Swift bridge, `ai.swift`)

/-- A role-tagged chat message as decoded by the Swift bridge
(`ChatMessage` struct): `content` is optional, `tool_calls` — when the
decoder found an array of dictionaries — carries the OpenAI-style
tool-call objects as JSON values. -/
structure ChatMessage where
  role : String
  content : Option String := none
  name : Option String := none
  tool_call_id : Option String := none
  tool_calls : Option (List Json) := none

/-- A transcript segment (`Transcript.Segment`, text case only — the
only case the bridge constructs). -/
inductive Segment where
  | text (content : String) : Segment
deriving Repr, DecidableEq

/-- `Transcript.ToolDefinition`: the compiled parameter schema is carried
as its source JSON (schema compilation itself is outside these claims). -/
structure ToolDefinition where
  name : String
  description : String
  parameters : Json

/-- `Transcript.Instructions`. -/
structure Instructions where
  segments : List Segment
  toolDefinitions : List ToolDefinition

/-- `Transcript.Prompt`. -/
structure Prompt where
  segments : List Segment
deriving Repr, DecidableEq

/-- `Transcript.Response`. -/
structure Response where
  assetIDs : List String
  segments : List Segment
deriving Repr, DecidableEq

/-- `Transcript.ToolCall`: the bridge stores the arguments as the JSON
text handed to `GeneratedContent` (`createGeneratedContentFromDictionary`). -/
structure ToolCall where
  id : String
  toolName : String
  arguments : String
  description : String
deriving Repr, DecidableEq

/-- `Transcript.ToolOutput`. -/
structure ToolOutput where
  id : String
  toolName : String
  segments : List Segment
deriving Repr, DecidableEq

/-- `Transcript.Entry` tagged union. -/
inductive Entry where
  | instructions (i : Instructions) : Entry
  | prompt (p : Prompt) : Entry
  | response (r : Response) : Entry
  | toolCalls (calls : List ToolCall) : Entry
  | toolOutput (o : ToolOutput) : Entry

/-- Is the entry an `Instructions` entry? -/
def Entry.isInstructions : Entry → Bool
  | .instructions _ => true
  | _ => false

/-- Is the entry a `ToolOutput` entry? -/
def Entry.isToolOutput : Entry → Bool
  | .toolOutput _ => true
  | _ => false

-- ## Transcript Builder (`convertMessagesToTranscript` and helpers)

/-- Swift `String.lowercased()` (executable character-wise model; the
roles the code compares are ASCII). -/
def lowercased (s : String) : String :=
  String.mk (s.data.map Char.toLower)

/-- `createPrompt(from:)`: one text segment with `content ?? ""`. -/
def createPrompt (m : ChatMessage) : Prompt :=
  ⟨[Segment.text (m.content.getD "")]⟩

/-- `createResponse(from:)`: empty asset list, one text segment. -/
def createResponse (m : ChatMessage) : Response :=
  ⟨[], [Segment.text (m.content.getD "")]⟩

/-- `createInstructions(from:)`: one text segment, no tool definitions.
(Dead in the current builder, which filters system messages out; kept
because the spec refers to it.) -/
def createInstructions (m : ChatMessage) : Instructions :=
  ⟨[Segment.text (m.content.getD "")], []⟩

/-- Does an OpenAI-style call object have `function.name`?
(`call["function"] as? [String: Any]` then `function["name"] != nil`). -/
def hasFunctionName (call : Json) : Bool :=
  match jsonField call "function" with
  | some f => isObj f && (jsonField f "name").isSome
  | none => false

/-- `convertOpenAIToolCalls`: keep calls with string `id`, object
`function` carrying a string `name`; parse `function.arguments` (a JSON
string) as an object, defaulting to empty; the `GeneratedContent` for the
arguments is their JSON text. -/
def convertOpenAIToolCalls (calls : List Json) : List ToolCall :=
  calls.filterMap (fun call =>
    match asString (jsonField call "id") with
    | none => none
    | some id =>
      match jsonField call "function" with
      | some f =>
        if isObj f then
          match asString (jsonField f "name") with
          | none => none
          | some name =>
            let args : List (String × Json) :=
              match asString (jsonField f "arguments") with
              | some s =>
                match parseJson s with
                | some (.obj o) => o
                | _ => []
              | none => []
            let description := (asString (jsonField f "description")).getD ""
            some ⟨id, name, serializeJson (Json.obj args), description⟩
        else none
      | none => none)

/-- The value rendering used by the legacy assistant tool-call summary
(`"\(key)=\(value)"` interpolation of decoded JSON scalars). -/
def jsonScalarText : Json → String
  | .str s => s
  | .num n => toString n
  | .bool true => "true"
  | .bool false => "false"
  | .null => "null"
  | .arr _ => "array"
  | .obj _ => "object"

/-- Legacy summary text for tool calls embedded in assistant `content`:
`name(k=v, ...)` entries joined by `", "`. -/
def legacyToolCallsSummary (calls : List Json) : String :=
  String.intercalate ", " (calls.filterMap (fun call =>
    match jsonField call "function" with
    | some f =>
      match asString (jsonField f "name") with
      | none => none
      | some name =>
        match asString (jsonField f "arguments") with
        | some argsString =>
          match parseJson argsString with
          | some (.obj args) =>
            some (name ++ "(" ++
              String.intercalate ", "
                (args.map (fun p => p.1 ++ "=" ++ jsonScalarText p.2)) ++ ")")
          | _ => some (name ++ "()")
        | none => some (name ++ "()")
    | none => none))

/-- Legacy fallback of `createAssistantEntry`: content that parses as a
non-empty JSON array of call dictionaries (all with `function.name`)
becomes a summary `Response`; anything else a literal `Response`. -/
def createAssistantLegacyEntry (m : ChatMessage) : Entry :=
  match m.content with
  | some content =>
    match parseJson content with
    | some (.arr calls) =>
      if !calls.isEmpty && calls.all isObj && calls.all hasFunctionName then
        .response ⟨[], [Segment.text (legacyToolCallsSummary calls)]⟩
      else .response (createResponse m)
    | _ => .response (createResponse m)
  | none => .response (createResponse m)

/-- `createAssistantEntry(from:)`: well-formed `tool_calls` become a
`ToolCalls` entry; else content parsing as a legacy embedded tool-call
array yields a summary `Response`; else a literal `Response`. -/
def createAssistantEntry (m : ChatMessage) : Entry :=
  match m.tool_calls with
  | some calls =>
    if !calls.isEmpty && calls.all hasFunctionName then
      .toolCalls (convertOpenAIToolCalls calls)
    else createAssistantLegacyEntry m
  | none => createAssistantLegacyEntry m

/-- One `segments` element of a tool-output record: kept when
`type == "text"` with a string `text`. -/
def parseToolOutputSegment (seg : Json) : Option Segment :=
  match asString (jsonField seg "type") with
  | some t =>
    if t = "text" then
      match asString (jsonField seg "text") with
      | some s => some (Segment.text s)
      | none => none
    else none
  | none => none

/-- One record of a tool message's `tool_calls` array: kept when it
carries a string `id`, a string `toolName` and an array-of-objects
`segments` (a failed guard skips the record). -/
def parseToolOutputRecord (tc : Json) : Option ToolOutput :=
  match asString (jsonField tc "id") with
  | none => none
  | some id =>
    match asString (jsonField tc "toolName") with
    | none => none
    | some toolName =>
      match jsonField tc "segments" with
      | some (.arr segs) =>
        if segs.all isObj then
          some ⟨id, toolName, segs.filterMap parseToolOutputSegment⟩
        else none
      | _ => none

/-- The tool-output records of a `tool` message (exact role match) whose
content parses to an object with a `tool_calls` array. -/
def toolOutputRecords (m : ChatMessage) : List ToolOutput :=
  if m.role = "tool" then
    match m.content with
    | some content =>
      match parseJson content with
      | some j =>
        match jsonField j "tool_calls" with
        | some (.arr toolCallsArr) => toolCallsArr.filterMap parseToolOutputRecord
        | _ => []
      | none => []
    | none => []
  else []

/-- `createToolOutputEntry(from:)`: each parsed record becomes its own
`ToolOutput` entry. -/
def createToolOutputEntry (m : ChatMessage) : List Entry :=
  (toolOutputRecords m).map Entry.toolOutput

/-- The tool-output de-duplication filter of `convertMessagesToTranscript`:
keep each entry unless it is a `ToolOutput` whose id was already seen,
inserting fresh ids into the seen set as they are emitted. -/
def dedupFilter : List Entry → List String → List Entry × List String
  | [], seen => ([], seen)
  | e :: es, seen =>
    match e with
    | .toolOutput o =>
      if o.id ∈ seen then dedupFilter es seen
      else
        (e :: (dedupFilter es (o.id :: seen)).1, (dedupFilter es (o.id :: seen)).2)
    | _ =>
      (e :: (dedupFilter es seen).1, (dedupFilter es seen).2)

/-- The per-message loop of `convertMessagesToTranscript`, threading the
seen tool-output id set. -/
def convertLoop : List ChatMessage → List String → List Entry
  | [], _ => []
  | m :: rest, seen =>
    if lowercased m.role = "user" then
      .prompt (createPrompt m) :: convertLoop rest seen
    else if lowercased m.role = "assistant" then
      createAssistantEntry m :: convertLoop rest seen
    else if lowercased m.role = "tool" then
      (dedupFilter (createToolOutputEntry m) seen).1
        ++ convertLoop rest (dedupFilter (createToolOutputEntry m) seen).2
    else
      .prompt (createPrompt m) :: convertLoop rest seen

/-- `convertMessagesToTranscript`: system messages are skipped ("they
will be handled separately with tools"); the rest are converted in order
with tool-output de-duplication across the whole build. -/
def convertMessagesToTranscript (messages : List ChatMessage) : List Entry :=
  convertLoop (messages.filter (fun m => lowercased m.role ≠ "system")) []

-- ## Conversation context preparation (`prepareConversationContext`)

/-- `ConversationContext` (generation options are orthogonal to every
claim here and are omitted). -/
structure ConversationContext where
  currentPrompt : String
  transcriptEntries : List Entry

/-- `ConversationError`. -/
inductive ConversationError where
  | intelligenceUnavailable (reason : String) : ConversationError
  | invalidJSON (reason : String) : ConversationError
  | noMessages : ConversationError

/-- `prepareConversationContext` after availability checking and JSON
decoding (both performed upstream by external collaborators): empty
message lists fail; a trailing `tool` (lowercased) message keeps the whole
list with an empty prompt; a trailing `user` message becomes the current
prompt and is dropped from the transcript; any other trailing role keeps
the whole list with an empty prompt. -/
def prepareConversationContext (messages : List ChatMessage) :
    Except ConversationError ConversationContext :=
  match messages.getLast? with
  | none => .error .noMessages
  | some lastMessage =>
    if lowercased lastMessage.role = "tool" then
      .ok ⟨"", convertMessagesToTranscript messages⟩
    else if lowercased lastMessage.role = "user" then
      .ok ⟨lastMessage.content.getD "", convertMessagesToTranscript messages.dropLast⟩
    else
      .ok ⟨"", convertMessagesToTranscript messages⟩

-- ## Streaming Coordinator (`actor StreamingCoordinator`)

/-- The state of the streaming coordinator actor. In the source there is
exactly one process-wide instance (`static let shared`). -/
structure StreamingCoordinator where
  expectedToolCount : Int := 0
  completedToolCount : Int := 0
  shouldStopAfterTools : Bool := false
  allToolsCompleted : Bool := false
deriving Repr, DecidableEq, Inhabited

/-- `reset(expectedTools:stopAfterToolCalls:)`. -/
def StreamingCoordinator.reset (expectedTools : Int) (stopAfterToolCalls : Bool)
    (_s : StreamingCoordinator) : StreamingCoordinator :=
  { expectedToolCount := expectedTools
    completedToolCount := 0
    shouldStopAfterTools := stopAfterToolCalls
    allToolsCompleted := false }

/-- `toolCompleted()`. -/
def StreamingCoordinator.toolCompleted (s : StreamingCoordinator) : StreamingCoordinator :=
  { s with completedToolCount := s.completedToolCount + 1, allToolsCompleted := true }

/-- `shouldTerminateStream()`. -/
def StreamingCoordinator.shouldTerminateStream (s : StreamingCoordinator) : Bool :=
  s.shouldStopAfterTools && s.completedToolCount > 0

/-- `hasToolsToExecute()`. -/
def StreamingCoordinator.hasToolsToExecute (s : StreamingCoordinator) : Bool :=
  s.expectedToolCount > 0

/-- `n` successive `toolCompleted()` notifications. -/
def iterateToolCompleted : Nat → StreamingCoordinator → StreamingCoordinator
  | 0, s => s
  | n + 1, s => iterateToolCompleted n s.toolCompleted

/-- An operation some request performs on the coordinator. -/
inductive CoordEvent where
  | resetEv (expectedTools : Int) (stopAfterToolCalls : Bool) : CoordEvent
  | toolCompletedEv : CoordEvent
deriving Repr, DecidableEq

/-- Apply one coordinator operation. -/
def CoordEvent.apply : CoordEvent → StreamingCoordinator → StreamingCoordinator
  | .resetEv e s, st => st.reset e s
  | .toolCompletedEv, st => st.toolCompleted

/-- The process-wide `StreamingCoordinator.shared` semantics: operations
from all requests (tagged with a request id) act on the one shared
instance, in arrival order. -/
def runSharedCoordinator (trace : List (Nat × CoordEvent)) : StreamingCoordinator :=
  trace.foldl (fun st p => p.2.apply st) default

/-- The same trace with the request tags erased. -/
def runCoordinatorEvents (evts : List CoordEvent) : StreamingCoordinator :=
  evts.foldl (fun st e => e.apply st) default

-- ## Unified Generation Dispatcher (`appleAIGenerateUnified`)

/-- `if let s = optional, !s.isEmpty` — the guard both mode chains use on
the optional tools / schema JSON strings. -/
def providedNonEmpty : Option String → Bool
  | some s => !(s = "")
  | none => false

/-- The three mutually exclusive generation modes. -/
inductive GenerationMode where
  | toolsMode : GenerationMode
  | structuredMode : GenerationMode
  | basicMode : GenerationMode
deriving Repr, DecidableEq

/-- The mode-priority chain shared by both the streaming and the
non-streaming branch of `appleAIGenerateUnified`: tools beat schema beat
basic. -/
def selectMode (toolsJson schemaJson : Option String) : GenerationMode :=
  if providedNonEmpty toolsJson then .toolsMode
  else if providedNonEmpty schemaJson then .structuredMode
  else .basicMode

/-- Control-B sentinel used by `emitError` to mark an error chunk. -/
def errorSentinel : Char := Char.ofNat 2

/-- The chunk `emitError` pushes through the streaming callback. -/
def emitErrorChunk (message : String) : String :=
  String.mk (errorSentinel :: message.data)

/-- What `appleAIGenerateUnified` decides to run for a request. -/
inductive UnifiedOutcome where
  | errorStreamingNoCallback : UnifiedOutcome
  | runTools (streaming : Bool) : UnifiedOutcome
  | runStructured : UnifiedOutcome
  | emitStreamError (message : String) : UnifiedOutcome
  | runBasic : UnifiedOutcome
  | runBasicStream : UnifiedOutcome
deriving Repr, DecidableEq

/-- The dispatch skeleton of `appleAIGenerateUnified`: validate the
streaming callback, then run the mode chain of the chosen branch
(the source spells the identical tools→schema→basic chain out in both
branches; in the streaming branch the structured case emits the
streaming-unsupported error instead of generating). -/
def appleAIGenerateUnified (toolsJson schemaJson : Option String)
    (stream hasOnChunk : Bool) : UnifiedOutcome :=
  if stream && !hasOnChunk then .errorStreamingNoCallback
  else if !stream then
    if providedNonEmpty toolsJson then .runTools false
    else if providedNonEmpty schemaJson then .runStructured
    else .runBasic
  else
    if providedNonEmpty toolsJson then .runTools true
    else if providedNonEmpty schemaJson then
      .emitStreamError "Structured generation does not support streaming"
    else .runBasicStream

-- ## Tools-mode transcript assembly (`handleToolsMode`)

/-- A proxy tool as built from the tools JSON (`JSProxyTool` inputs);
the parameter schema is carried as its source JSON. -/
structure JSProxyToolSpec where
  toolID : Nat
  name : String
  description : String
  parametersSchema : Json

/-- The system-content extraction of `handleToolsMode`: the first message
whose role lowercases to `system` and whose content is present. -/
def extractSystemContent : List ChatMessage → String
  | [] => ""
  | m :: rest =>
    if lowercased m.role = "system" then
      match m.content with
      | some c => c
      | none => extractSystemContent rest
    else extractSystemContent rest

/-- The transcript assembly of `handleToolsMode`: when there is any tool
or any system content, prepend one `Instructions` entry carrying the
system text (as its only segment, none if empty) together with the tool
definitions. -/
def buildToolsModeEntries (contextEntries : List Entry)
    (tools : List JSProxyToolSpec) (systemContent : String) : List Entry :=
  if !tools.isEmpty || !(systemContent = "") then
    let textSegment : List Segment :=
      if systemContent = "" then [] else [Segment.text systemContent]
    Entry.instructions
      ⟨textSegment, tools.map (fun t => ⟨t.name, t.description, t.parametersSchema⟩)⟩
      :: contextEntries
  else contextEntries

/-- The full tools-mode entry list for a request: the prepared context
entries with the instructions entry derived from the original messages
and the parsed tools. -/
def toolsModeFinalEntries (messages : List ChatMessage)
    (tools : List JSProxyToolSpec) (contextEntries : List Entry) : List Entry :=
  buildToolsModeEntries contextEntries tools (extractSystemContent messages)

-- ## Streaming chunk production (`handleBasicModeStream` / `handleToolsMode`)

/-- The delta loop of `handleBasicModeStream`: for each cumulative
snapshot from the runtime, emit the suffix past the previous snapshot,
skipping empty deltas (`prev` advances regardless). -/
def streamDeltasAux (prev : String) : List String → List String
  | [] => []
  | cumulative :: rest =>
    if cumulative.drop prev.length = "" then streamDeltasAux cumulative rest
    else cumulative.drop prev.length :: streamDeltasAux cumulative rest

/-- The chunk sequence `handleBasicModeStream` delivers to `onChunk`
for a given cumulative-text history: the non-empty deltas followed by
the end-of-stream `nil` sentinel. -/
def handleBasicModeStreamChunks (cumulatives : List String) : List (Option String) :=
  (streamDeltasAux "" cumulatives).map some ++ [none]

/-- The delta loop of streaming `handleToolsMode`: before each snapshot,
when `stopAfterToolCalls` is set, the coordinator's termination answer
(recorded alongside the snapshot) breaks the loop; otherwise deltas are
produced as in basic mode. -/
def toolsStreamDeltasAux (stopAfterToolCalls : Bool) (prev : String) :
    List (Bool × String) → List String
  | [] => []
  | (terminate, cumulative) :: rest =>
    if stopAfterToolCalls && terminate then []
    else if cumulative.drop prev.length = "" then
      toolsStreamDeltasAux stopAfterToolCalls cumulative rest
    else cumulative.drop prev.length :: toolsStreamDeltasAux stopAfterToolCalls cumulative rest

/-- The chunk sequence streaming `handleToolsMode` delivers to `onChunk`:
deltas until completion or early termination, then the `nil` sentinel
(sent regardless of the early exit). -/
def handleToolsModeStreamChunks (stopAfterToolCalls : Bool)
    (steps : List (Bool × String)) : List (Option String) :=
  (toolsStreamDeltasAux stopAfterToolCalls "" steps).map some ++ [none]

/-- The JS `streamResponse` end-of-stream test on a received chunk:
`chunk == null || chunk === ""`. -/
def jsStreamDone (chunk : Option String) : Bool :=
  chunk = none || chunk = some ""

-- ## JS Tool Call Bridge (`apple-ai.ts`)

/-- The JSON text `"{}"` delivered as the empty-object result. -/
def emptyObjectJson : String := "\x7b\x7d"

/-- An entry of the `toolMap` of `chatWithEphemeralTools`: `execute`
models the caller-supplied handler, which may throw. -/
structure EphemeralToolEntry where
  execute : Json → Except String Json

/-- `toolMap.get(toolId)` on the association list of registered tools. -/
def lookupTool (toolMap : List (Nat × EphemeralToolEntry)) (toolId : Nat) :
    Option EphemeralToolEntry :=
  (toolMap.find? (fun p => p.1 = toolId)).map Prod.snd

/-- One invocation of the tool callback registered by
`chatWithEphemeralTools`, as the `(toolId, resultJson)` pair it passes to
`toolBindings.toolResult` — or `none` when the invocation returns without
delivering any result.  Paths, in source order: a non-null `err` logs and
returns (no result); an unknown `toolId` delivers `"{}"`; a JSON parse
failure of the arguments or a handler exception is caught and delivers
`"{}"`; success delivers the stringified handler result. -/
def ephemeralToolCallbackResult (toolMap : List (Nat × EphemeralToolEntry))
    (err : Option String) (toolId : Nat) (argsJson : String) :
    Option (Nat × String) :=
  if err.isSome then none
  else
    match lookupTool toolMap toolId with
    | none => some (toolId, emptyObjectJson)
    | some tool =>
      match parseJson argsJson with
      | none => some (toolId, emptyObjectJson)
      | some args =>
        match tool.execute args with
        | .error _ => some (toolId, emptyObjectJson)
        | .ok result => some (toolId, serializeJson result)

/-- JS `tools[i]` indexing (negative or out-of-range yields `undefined`). -/
def jsIndex {α : Type} (xs : List α) (i : Int) : Option α :=
  if i < 0 then none else xs.get? i.toNat

/-- What one invocation of the callback registered by
`streamChatWithExternalTools` does. -/
inductive ExternalCallbackOutcome where
  /-- `toolBindings.toolResult(toolId, resultJson)` is called right away;
  no `PendingToolCall` is created. -/
  | deliver (toolId : Int) (resultJson : String) : ExternalCallbackOutcome
  /-- A `PendingToolCall` is created, the tool-call event is pushed to the
  stream, and the (eventual) result is delivered only upon external
  injection. -/
  | pending (toolId : Int) (toolName : String) (args : Json) : ExternalCallbackOutcome

/-- One invocation of the tool callback registered by
`streamChatWithExternalTools`.  Paths, in source order: a non-null `err`
delivers `"{}"` immediately ("Resume Swift continuation to avoid
leaks"); an unknown `toolId` (no tool at the 1-based index) delivers
`"{}"` immediately; an arguments parse failure is caught and delivers the
`{error: ...}` object; otherwise a pending call is created and awaits
injection. -/
def externalToolsCallback (tools : List String) (err : Option String)
    (id : Int) (argsJson : String) : ExternalCallbackOutcome :=
  if err.isSome then .deliver id emptyObjectJson
  else
    match jsIndex tools (id - 1) with
    | none => .deliver id emptyObjectJson
    | some toolName =>
      match parseJson argsJson with
      | none =>
        .deliver id (serializeJson (Json.obj [("error", Json.str "SyntaxError")]))
      | some args => .pending id toolName args

/-- The result text delivered to the runtime when a pending call's result
is injected: `JSON.stringify(result ?? null)`. -/
def injectedResultJson (result : Option Json) : String :=
  serializeJson (result.getD Json.null)

-- ## External-orchestration stream lifecycle (`streamChatWithExternalTools`)

/-- The request-scoped state of `streamChatWithExternalTools`:
the pending tool calls (correlation id ↦ toolId), whether the readable was
destroyed with an error, whether end-of-stream was pushed, and whether the
global tool callback was cleared. -/
structure ExternalStreamState where
  pendingToolCalls : List (String × Int) := []
  destroyedWithError : Bool := false
  pushedEndOfStream : Bool := false
  callbackCleared : Bool := false
deriving Repr, DecidableEq, Inhabited

/-- The native stream callback of `streamChatWithExternalTools`, returning
the next state together with every `(toolId, resultJson)` pair it delivers
through `toolBindings.toolResult`: an error destroys the readable and
clears the callback; a null/empty chunk pushes end-of-stream and clears
the callback; a data chunk is forwarded.  No branch touches
`pendingToolCalls` and no branch delivers any tool result. -/
def onExternalStreamChunk (s : ExternalStreamState) (err : Option String)
    (chunk : Option String) : ExternalStreamState × List (Int × String) :=
  if err.isSome then
    ({ s with destroyedWithError := true, callbackCleared := true }, [])
  else if chunk = none ∨ chunk = some "" then
    ({ s with pushedEndOfStream := true, callbackCleared := true }, [])
  else (s, [])

/-- `injectToolResult(toolCallId, result)`: resolve and remove the pending
call when present, otherwise do nothing.  Returns the new state and the
`(toolId, resultJson)` delivery performed, if any. -/
def injectToolResult (s : ExternalStreamState) (toolCallId : String)
    (result : Option Json) : ExternalStreamState × Option (Int × String) :=
  match s.pendingToolCalls.find? (fun p => p.1 = toolCallId) with
  | some pendingCall =>
    ({ s with pendingToolCalls := s.pendingToolCalls.filter (fun p => ¬ p.1 = toolCallId) },
      some (pendingCall.2, injectedResultJson result))
  | none => (s, none)

-- ## Tool-output id bookkeeping (for the de-duplication property)

/-- The tool-output id of an entry, when it is a `ToolOutput` entry. -/
def entryToolOutputId : Entry → Option String
  | .toolOutput o => some o.id
  | _ => none

/-- The ids of the `ToolOutput` entries of a transcript, in order. -/
def toolOutputIds (entries : List Entry) : List String :=
  entries.filterMap entryToolOutputId

/-- The ids of all tool-output records carried by the messages (before
de-duplication): for each message reaching the builder's `tool` branch,
the ids of its parsed records, in order. -/
def rawToolOutputIds : List ChatMessage → List String
  | [] => []
  | m :: rest =>
    (if lowercased m.role = "tool" then toolOutputIds (createToolOutputEntry m) else [])
      ++ rawToolOutputIds rest

-- ## Helper lemmas

/-- `iterateToolCompleted` adds to the completed count and leaves the
stop flag unchanged. -/
theorem iterateToolCompleted_state (n : Nat) (s : StreamingCoordinator) :
    (iterateToolCompleted n s).completedToolCount = s.completedToolCount + n
    ∧ (iterateToolCompleted n s).shouldStopAfterTools = s.shouldStopAfterTools := by
  induction n generalizing s with
  | zero => simp [iterateToolCompleted]
  | succ n ih =>
    have h := ih s.toolCompleted
    simp only [iterateToolCompleted]
    refine ⟨?_, ?_⟩
    · rw [h.1]
      simp only [StreamingCoordinator.toolCompleted]
      push_cast
      ring
    · rw [h.2]
      rfl

/-- Composing iterated completions. -/
theorem iterateToolCompleted_add (n k : Nat) (s : StreamingCoordinator) :
    iterateToolCompleted k (iterateToolCompleted n s) = iterateToolCompleted (n + k) s := by
  induction n generalizing s with
  | zero => simp [iterateToolCompleted]
  | succ n ih =>
    simp only [iterateToolCompleted, ih, Nat.succ_add]

-- ## Claim theorems

/-- C3: after `reset(expectedTools, stopAfterToolCalls)`, `shouldTerminate()`
returns true iff `stopAfterToolCalls` is set and at least one
tool-completed notification has occurred since the reset — on the first
completed tool, independent of the expected tool count — and once true it
stays true under further completions until the next reset. -/
theorem shouldTerminate_first_tool_and_monotone (prior : StreamingCoordinator)
    (expectedTools : Int) (stopAfterToolCalls : Bool) (n : Nat) :
    ((iterateToolCompleted n (prior.reset expectedTools stopAfterToolCalls)).shouldTerminateStream
      = (stopAfterToolCalls && decide (0 < n)))
    ∧ ((iterateToolCompleted n (prior.reset expectedTools stopAfterToolCalls)).shouldTerminateStream
        = true →
      ∀ k : Nat,
        (iterateToolCompleted k
          (iterateToolCompleted n (prior.reset expectedTools stopAfterToolCalls))).shouldTerminateStream
          = true) := by
  have hstate := iterateToolCompleted_state n (prior.reset expectedTools stopAfterToolCalls)
  have hform : (iterateToolCompleted n (prior.reset expectedTools stopAfterToolCalls)).shouldTerminateStream
      = (stopAfterToolCalls && decide (0 < n)) := by
    simp only [StreamingCoordinator.shouldTerminateStream]
    rw [hstate.1, hstate.2]
    simp only [StreamingCoordinator.reset]
    congr 1
    rw [decide_eq_decide]
    omega
  refine ⟨hform, ?_⟩
  intro htrue k
  rw [iterateToolCompleted_add]
  have hstate2 := iterateToolCompleted_state (n + k) (prior.reset expectedTools stopAfterToolCalls)
  simp only [StreamingCoordinator.shouldTerminateStream]
  rw [hstate2.1, hstate2.2]
  simp only [StreamingCoordinator.reset]
  rw [hform] at htrue
  rw [Bool.and_eq_true] at htrue
  obtain ⟨hstop, hn⟩ := htrue
  rw [decide_eq_true_eq] at hn
  rw [hstop]
  simp only [Bool.true_and]
  rw [decide_eq_true_eq]
  omega

/-- C3 witness: with `stopAfterToolCalls = true`, a single completion
after a reset expecting 3 tools makes `shouldTerminate()` true, and it is
still true after five further completions. -/
theorem shouldTerminate_first_tool_and_monotone_witness :
    (iterateToolCompleted 1 ((default : StreamingCoordinator).reset 3 true)).shouldTerminateStream
      = true
    ∧ (iterateToolCompleted 5
        (iterateToolCompleted 1 ((default : StreamingCoordinator).reset 3 true))).shouldTerminateStream
      = true := by
  have h := shouldTerminate_first_tool_and_monotone (default : StreamingCoordinator) 3 true 1
  have h1 : (iterateToolCompleted 1 ((default : StreamingCoordinator).reset 3 true)).shouldTerminateStream
      = true := by
    rw [h.1]
    decide
  exact ⟨h1, h.2 h1 5⟩

/-- C6 counterexample: the coordinator is the process-wide
`StreamingCoordinator.shared` instance.  Request 0 resets it with
`stopAfterToolCalls = true` and observes `shouldTerminate() = false`;
after a tool-completed event performed on behalf of request 1, request 0
observes `shouldTerminate() = true` — one request's event changed the
result observed by the other, refuting the claimed isolation. -/
theorem coordinator_interference_counterexample :
    (runSharedCoordinator [(0, .resetEv 1 true)]).shouldTerminateStream = false
    ∧ (runSharedCoordinator [(0, .resetEv 1 true), (1, .toolCompletedEv)]).shouldTerminateStream
      = true := by
  decide

/-- C6 (amended): the streaming-coordinator state is a single shared
instance, not per-request — the request id performing an operation is
ignored (the tagged shared run equals the untagged run of the same
events), and consequently a tool completion performed by any other
request makes `shouldTerminate()` true for a request that reset the
coordinator with `stopAfterToolCalls = true`. -/
theorem coordinator_shared_not_isolated :
    (∀ trace : List (Nat × CoordEvent),
      runSharedCoordinator trace = runCoordinatorEvents (trace.map Prod.snd))
    ∧ ∀ (a b : Nat) (expectedTools : Int), a ≠ b →
      (runSharedCoordinator
        [(a, .resetEv expectedTools true), (b, .toolCompletedEv)]).shouldTerminateStream = true := by
  constructor
  · intro trace
    unfold runSharedCoordinator runCoordinatorEvents
    rw [List.foldl_map]
  · intro a b expectedTools hab
    rfl

/-- C6 witness: requests 0 and 1 are distinct; request 1's completion
flips the shared coordinator that request 0 reset. -/
theorem coordinator_shared_not_isolated_witness :
    (runSharedCoordinator [(0, .resetEv 2 true), (1, .toolCompletedEv)]).shouldTerminateStream
      = true := by
  exact coordinator_shared_not_isolated.2 0 1 2 (by decide)

/-- C4: mode selection is by presence with tools beating schema beating
basic — a request whose tools JSON is a provided non-empty string is
dispatched to tools mode in both the non-streaming and the streaming
branch, even when a schema is also present; structured mode is selected
exactly when tools are absent (or empty) and a schema is present; basic
mode exactly when both are absent. -/
theorem mode_priority_tools_beat_schema (toolsJson schemaJson : Option String) (hasCb : Bool) :
    (∀ t : String, toolsJson = some t → t ≠ "" →
      selectMode toolsJson schemaJson = .toolsMode
      ∧ appleAIGenerateUnified toolsJson schemaJson false hasCb = .runTools false
      ∧ appleAIGenerateUnified toolsJson schemaJson true true = .runTools true)
    ∧ (selectMode toolsJson schemaJson = .structuredMode ↔
        providedNonEmpty toolsJson = false ∧ providedNonEmpty schemaJson = true)
    ∧ (selectMode toolsJson schemaJson = .basicMode ↔
        providedNonEmpty toolsJson = false ∧ providedNonEmpty schemaJson = false) := by
  refine ⟨?_, ?_, ?_⟩
  · intro t ht hne
    subst ht
    have hp : providedNonEmpty (some t) = true := by
      simp [providedNonEmpty, hne]
    refine ⟨?_, ?_, ?_⟩ <;>
      simp [selectMode, appleAIGenerateUnified, hp]
  · unfold selectMode
    rcases hpt : providedNonEmpty toolsJson <;>
      rcases hps : providedNonEmpty schemaJson <;>
        simp
  · unfold selectMode
    rcases hpt : providedNonEmpty toolsJson <;>
      rcases hps : providedNonEmpty schemaJson <;>
        simp

/-- C4 witness: a request carrying both a tools list and a schema is
dispatched to tools mode, non-streaming and streaming alike. -/
theorem mode_priority_tools_beat_schema_witness :
    appleAIGenerateUnified (some "[1]") (some "schema") false false = .runTools false
    ∧ appleAIGenerateUnified (some "[1]") (some "schema") true true = .runTools true := by
  have h := (mode_priority_tools_beat_schema (some "[1]") (some "schema") false).1
    "[1]" rfl (by decide)
  exact ⟨h.2.1, h.2.2⟩

/-- C9: a streaming request in structured mode (schema present and
non-empty, tools absent or empty) makes the dispatcher emit the
streaming-unsupported error chunk to the caller — the outcome is the
error emission, not basic streaming nor non-streaming structured
generation, and the emitted error chunk is never the empty end-of-stream
sentinel. -/
theorem structured_mode_rejects_streaming (toolsJson schemaJson : Option String) :
    providedNonEmpty toolsJson = false → ∀ s : String, schemaJson = some s → s ≠ "" →
    appleAIGenerateUnified toolsJson schemaJson true true
      = .emitStreamError "Structured generation does not support streaming"
    ∧ appleAIGenerateUnified toolsJson schemaJson true true ≠ .runBasicStream
    ∧ appleAIGenerateUnified toolsJson schemaJson true true ≠ .runStructured
    ∧ emitErrorChunk "Structured generation does not support streaming" ≠ "" := by
  intro htools s hs hne
  subst hs
  have hps : providedNonEmpty (some s) = true := by
    simp [providedNonEmpty, hne]
  have hmain : appleAIGenerateUnified toolsJson (some s) true true
      = .emitStreamError "Structured generation does not support streaming" := by
    simp [appleAIGenerateUnified, htools, hps]
  refine ⟨hmain, ?_, ?_, ?_⟩
  · rw [hmain]
    simp
  · rw [hmain]
    simp
  · intro h
    have : (emitErrorChunk "Structured generation does not support streaming").data
        = ("" : String).data := by rw [h]
    simp [emitErrorChunk] at this

/-- C9 witness: a schema-only streaming request yields the
streaming-unsupported error emission. -/
theorem structured_mode_rejects_streaming_witness :
    appleAIGenerateUnified none (some "schema") true true
      = .emitStreamError "Structured generation does not support streaming" := by
  exact (structured_mode_rejects_streaming none (some "schema") rfl "schema" rfl
    (by decide)).1

/-- C5: evidence for the missing cleanup — the native stream callback of
`streamChatWithExternalTools` never touches the pending tool calls and
never delivers a tool result: on stream error it destroys the readable
and clears the tool callback, on end-of-stream it pushes EOS and clears
the tool callback, and in every case the `PendingToolCall` map is left
exactly as it was, so a call still awaiting injection when the request
ends stays unresolved instead of being resolved with a synthetic failure. -/
theorem external_stream_end_leaves_pending (s : ExternalStreamState)
    (err : Option String) (chunk : Option String) :
    (onExternalStreamChunk s err chunk).1.pendingToolCalls = s.pendingToolCalls
    ∧ (onExternalStreamChunk s err chunk).2 = []
    ∧ ((err.isSome = true ∨ chunk = none ∨ chunk = some "") →
        (onExternalStreamChunk s err chunk).1.callbackCleared = true) := by
  unfold onExternalStreamChunk
  rcases herr : err.isSome
  · simp only [herr, Bool.false_eq_true, if_false]
    by_cases hc : chunk = none ∨ chunk = some ""
    · simp [hc, herr]
    · simp [hc, herr]
  · simp [herr]

/-- C5 witness: at the end-of-stream signal with one pending call
`tool-call-1 ↦ 1`, the callback is cleared and EOS pushed but the pending
call remains and no result is delivered. -/
theorem external_stream_end_leaves_pending_witness :
    (onExternalStreamChunk ⟨[("tool-call-1", 1)], false, false, false⟩ none none).1.pendingToolCalls
      = [("tool-call-1", 1)]
    ∧ (onExternalStreamChunk ⟨[("tool-call-1", 1)], false, false, false⟩ none none).2 = []
    ∧ (onExternalStreamChunk ⟨[("tool-call-1", 1)], false, false, false⟩ none none).1.callbackCleared
      = true := by
  have h := external_stream_end_leaves_pending ⟨[("tool-call-1", 1)], false, false, false⟩ none none
  exact ⟨h.1, h.2.1, h.2.2 (Or.inr (Or.inl rfl))⟩

/-- C2 counterexample: the callback registered by `chatWithEphemeralTools`,
invoked with a non-null error argument, returns after logging without
calling `toolBindings.toolResult` — no result of any kind is delivered to
the runtime, refuting the claim that every invocation of the registered
callback delivers some result. -/
theorem bridge_error_path_no_result_counterexample :
    ephemeralToolCallbackResult [(1, ⟨fun _ => .ok Json.null⟩)] (some "callback error") 1
      emptyObjectJson = none := rfl

/-- C2 (amended): an unknown `toolId` yields an immediate empty-object
result (in `chatWithEphemeralTools` via the map miss, in
`streamChatWithExternalTools` via the 1-based index miss, where no
`PendingToolCall` is created); in `chatWithEphemeralTools` an
arguments-JSON decode failure or a handler exception yields an
empty-object result, but the error-argument path delivers no result at
all; in `streamChatWithExternalTools` the error-argument path delivers an
empty-object result and a decode failure delivers an error-object result. -/
theorem bridge_callback_result_paths (toolMap : List (Nat × EphemeralToolEntry))
    (tools : List String) (err : Option String) (toolId : Nat) (id : Int) (argsJson : String) :
    (err = none → lookupTool toolMap toolId = none →
      ephemeralToolCallbackResult toolMap err toolId argsJson = some (toolId, emptyObjectJson))
    ∧ (∀ tool, err = none → lookupTool toolMap toolId = some tool → parseJson argsJson = none →
      ephemeralToolCallbackResult toolMap err toolId argsJson = some (toolId, emptyObjectJson))
    ∧ (∀ tool args msg, err = none → lookupTool toolMap toolId = some tool →
      parseJson argsJson = some args → tool.execute args = .error msg →
      ephemeralToolCallbackResult toolMap err toolId argsJson = some (toolId, emptyObjectJson))
    ∧ (err.isSome = true →
      ephemeralToolCallbackResult toolMap err toolId argsJson = none)
    ∧ (err.isSome = true →
      externalToolsCallback tools err id argsJson = .deliver id emptyObjectJson)
    ∧ (err = none → jsIndex tools (id - 1) = none →
      externalToolsCallback tools err id argsJson = .deliver id emptyObjectJson)
    ∧ (∀ toolName, err = none → jsIndex tools (id - 1) = some toolName →
      parseJson argsJson = none →
      externalToolsCallback tools err id argsJson
        = .deliver id (serializeJson (Json.obj [("error", Json.str "SyntaxError")])))
    ∧ (∀ toolName, err = none → jsIndex tools (id - 1) = some toolName →
      ∀ args, parseJson argsJson = some args →
      externalToolsCallback tools err id argsJson = .pending id toolName args) := by
  refine ⟨?_, ?_, ?_, ?_, ?_, ?_, ?_, ?_⟩
  · intro he hl
    subst he
    simp [ephemeralToolCallbackResult, hl]
  · intro tool he hl hp
    subst he
    simp [ephemeralToolCallbackResult, hl, hp]
  · intro tool args msg he hl hp hx
    subst he
    simp [ephemeralToolCallbackResult, hl, hp, hx]
  · intro he
    simp [ephemeralToolCallbackResult, he]
  · intro he
    simp [externalToolsCallback, he]
  · intro he hl
    subst he
    simp [externalToolsCallback, hl]
  · intro toolName he hl hp
    subst he
    simp [externalToolsCallback, hl, hp]
  · intro toolName he hl args hp
    subst he
    simp [externalToolsCallback, hl, hp]

/-- C2 witness: an unknown tool id (7, with an empty tool map) invoked
without error delivers the empty-object result in the ephemeral bridge,
and in the external bridge (id 7 with a single registered tool) delivers
the empty-object result without creating a pending call. -/
theorem bridge_callback_result_paths_witness :
    ephemeralToolCallbackResult [] none 7 "\x7b\x7d" = some (7, emptyObjectJson)
    ∧ externalToolsCallback ["add"] none 7 "\x7b\x7d" = .deliver 7 emptyObjectJson := by
  have h := bridge_callback_result_paths [] ["add"] none 7 7 "\x7b\x7d"
  exact ⟨h.1 rfl rfl, (h.2.2.2.2.2.1) rfl rfl⟩

/-- Every delta emitted by the basic-mode stream loop is non-empty. -/
theorem streamDeltasAux_ne_empty (l : List String) :
    ∀ prev, ∀ s ∈ streamDeltasAux prev l, s ≠ "" := by
  induction l with
  | nil =>
    intro prev s hs
    simp [streamDeltasAux] at hs
  | cons c rest ih =>
    intro prev s hs
    unfold streamDeltasAux at hs
    by_cases hd : c.drop prev.length = ""
    · rw [if_pos hd] at hs
      exact ih c s hs
    · rw [if_neg hd] at hs
      rcases List.mem_cons.mp hs with h | h
      · rw [h]
        exact hd
      · exact ih c s h

/-- Every delta emitted by the tools-mode stream loop is non-empty. -/
theorem toolsStreamDeltasAux_ne_empty (stop : Bool) (l : List (Bool × String)) :
    ∀ prev, ∀ s ∈ toolsStreamDeltasAux stop prev l, s ≠ "" := by
  induction l with
  | nil =>
    intro prev s hs
    simp [toolsStreamDeltasAux] at hs
  | cons step rest ih =>
    intro prev s hs
    obtain ⟨terminate, c⟩ := step
    unfold toolsStreamDeltasAux at hs
    by_cases hterm : stop && terminate
    · rw [if_pos hterm] at hs
      simp at hs
    · rw [if_neg hterm] at hs
      by_cases hd : c.drop prev.length = ""
      · rw [if_pos hd] at hs
        exact ih c s hs
      · rw [if_neg hd] at hs
        rcases List.mem_cons.mp hs with h | h
        · rw [h]
          exact hd
        · exact ih c s h

/-- The legacy assistant branch always yields a `Response` entry. -/
theorem createAssistantLegacyEntry_isResponse (m : ChatMessage) :
    ∃ r, createAssistantLegacyEntry m = Entry.response r := by
  unfold createAssistantLegacyEntry
  repeat' split
  all_goals exact ⟨_, rfl⟩

/-- `createAssistantEntry` yields either a `ToolCalls` or a `Response`
entry — never an `Instructions` or `ToolOutput` entry. -/
theorem createAssistantEntry_class (m : ChatMessage) :
    (∃ calls, createAssistantEntry m = Entry.toolCalls calls)
    ∨ (∃ r, createAssistantEntry m = Entry.response r) := by
  unfold createAssistantEntry
  split
  · split
    · exact Or.inl ⟨_, rfl⟩
    · exact Or.inr (createAssistantLegacyEntry_isResponse m)
  · exact Or.inr (createAssistantLegacyEntry_isResponse m)

/-- The de-duplication filter only keeps entries of its input. -/
theorem dedupFilter_subset (es : List Entry) :
    ∀ seen, ∀ e ∈ (dedupFilter es seen).1, e ∈ es := by
  induction es with
  | nil =>
    intro seen e he
    simp [dedupFilter] at he
  | cons a es ih =>
    intro seen e he
    unfold dedupFilter at he
    split at he
    case h_1 o =>
      by_cases hid : o.id ∈ seen
      · rw [if_pos hid] at he
        exact List.mem_cons_of_mem _ (ih seen e he)
      · rw [if_neg hid] at he
        rcases List.mem_cons.mp he with h | h
        · rw [h]
          exact List.mem_cons_self _ _
        · exact List.mem_cons_of_mem _ (ih _ e h)
    case h_2 =>
      rcases List.mem_cons.mp he with h | h
      · rw [h]
        exact List.mem_cons_self _ _
      · exact List.mem_cons_of_mem _ (ih seen e h)

/-- No entry produced by the conversion loop is an `Instructions` entry. -/
theorem convertLoop_no_instructions (msgs : List ChatMessage) :
    ∀ seen, ∀ e ∈ convertLoop msgs seen, e.isInstructions = false := by
  induction msgs with
  | nil =>
    intro seen e he
    simp [convertLoop] at he
  | cons m rest ih =>
    intro seen e he
    unfold convertLoop at he
    split_ifs at he with h1 h2 h3
    · rcases List.mem_cons.mp he with h | h
      · rw [h]
        rfl
      · exact ih seen e h
    · rcases List.mem_cons.mp he with h | h
      · rcases createAssistantEntry_class m with ⟨c, hc⟩ | ⟨r, hr⟩
        · rw [h, hc]
          rfl
        · rw [h, hr]
          rfl
      · exact ih seen e h
    · rcases List.mem_append.mp he with h | h
      · have hmem := dedupFilter_subset (createToolOutputEntry m) seen e h
        unfold createToolOutputEntry at hmem
        rw [List.mem_map] at hmem
        obtain ⟨o, _, ho⟩ := hmem
        rw [← ho]
        rfl
      · exact ih _ e h
    · rcases List.mem_cons.mp he with h | h
      · rw [h]
        rfl
      · exact ih seen e h

/-- Converting a message list equals converting its non-system sublist:
the builder drops system messages before the loop. -/
theorem convertMessagesToTranscript_drop_system (messages : List ChatMessage) :
    convertMessagesToTranscript messages
      = convertMessagesToTranscript
          (messages.filter (fun m => lowercased m.role ≠ "system")) := by
  unfold convertMessagesToTranscript
  rw [List.filter_filter]
  simp

/-- C10: in every streaming mode the callback receives only non-empty
data chunks before the terminal signal — empty deltas of the cumulative
text are skipped — and the null chunk appears exactly once, at the end;
consequently the JS layer's end-of-stream test (`chunk == null || chunk
=== ""`) is false on every data chunk and true on the sentinel. -/
theorem stream_chunks_nonempty_before_sentinel (cumulatives : List String)
    (stopAfterToolCalls : Bool) (steps : List (Bool × String)) :
    (∃ data : List String,
      handleBasicModeStreamChunks cumulatives = data.map some ++ [none]
      ∧ ∀ s ∈ data, s ≠ "" ∧ jsStreamDone (some s) = false)
    ∧ (∃ data : List String,
      handleToolsModeStreamChunks stopAfterToolCalls steps = data.map some ++ [none]
      ∧ ∀ s ∈ data, s ≠ "" ∧ jsStreamDone (some s) = false)
    ∧ jsStreamDone none = true := by
  refine ⟨⟨streamDeltasAux "" cumulatives, rfl, ?_⟩,
    ⟨toolsStreamDeltasAux stopAfterToolCalls "" steps, rfl, ?_⟩, rfl⟩
  · intro s hs
    have h := streamDeltasAux_ne_empty cumulatives "" s hs
    exact ⟨h, by simp [jsStreamDone, h]⟩
  · intro s hs
    have h := toolsStreamDeltasAux_ne_empty stopAfterToolCalls steps "" s hs
    exact ⟨h, by simp [jsStreamDone, h]⟩

/-- C10 witness: a concrete basic-mode history produces the two non-empty
deltas and then the sentinel, which alone satisfies the JS done test. -/
theorem stream_chunks_nonempty_before_sentinel_witness :
    handleBasicModeStreamChunks ["He", "Hello"] = [some "He", some "llo", none]
    ∧ jsStreamDone none = true := by
  exact ⟨rfl, (stream_chunks_nonempty_before_sentinel ["He", "Hello"] true []).2.2⟩

/-- C1 counterexample: a list ending in an `Assistant` message but
containing a `System` message.  The built context has the claimed empty
prompt, but its transcript entries consist of the assistant response
only — the system message appears nowhere, refuting "all messages of the
list appear in the transcript entries". -/
theorem trailing_non_user_system_dropped_counterexample :
    prepareConversationContext
        [⟨"system", some "be nice", none, none, none⟩,
          ⟨"assistant", some "hi", none, none, none⟩]
      = .ok ⟨"", [Entry.response ⟨[], [Segment.text "hi"]⟩]⟩ := rfl

/-- C1 (amended): for a non-empty list whose last message's lowercased
role is `user`, the built context's prompt is that message's content
(empty when absent) and the transcript is built from the list without
it; for any other trailing role the prompt is empty and the transcript is
built from the whole list, no message excluded by the trailing rule —
but the conversion itself drops `System` messages (and contributes no
entries for tool messages whose content does not parse into tool-output
records), so not every message of the list appears among the entries. -/
theorem trailing_prompt_extraction (messages : List ChatMessage)
    (lastMessage : ChatMessage) (hlast : messages.getLast? = some lastMessage) :
    (lowercased lastMessage.role = "user" →
      prepareConversationContext messages
        = .ok ⟨lastMessage.content.getD "",
            convertMessagesToTranscript messages.dropLast⟩)
    ∧ (lowercased lastMessage.role ≠ "user" →
      prepareConversationContext messages
        = .ok ⟨"", convertMessagesToTranscript messages⟩)
    ∧ convertMessagesToTranscript messages
        = convertMessagesToTranscript
            (messages.filter (fun m => lowercased m.role ≠ "system")) := by
  refine ⟨?_, ?_, convertMessagesToTranscript_drop_system messages⟩
  · intro hu
    simp only [prepareConversationContext, hlast]
    split_ifs with h1
    · rw [h1] at hu
      exact absurd hu (by decide)
    · rfl
  · intro hu
    simp only [prepareConversationContext, hlast]
    split_ifs with h1 <;> rfl

/-- C1 witness: a single user message becomes the current prompt with an
empty transcript; a user message after a tool-result message ending the
list leaves the prompt empty. -/
theorem trailing_prompt_extraction_witness :
    prepareConversationContext [⟨"user", some "hello", none, none, none⟩]
      = .ok ⟨"hello", []⟩
    ∧ prepareConversationContext
        [⟨"user", some "hello", none, none, none⟩,
          ⟨"assistant", some "hi", none, none, none⟩]
      = .ok ⟨"", convertMessagesToTranscript
          [⟨"user", some "hello", none, none, none⟩,
            ⟨"assistant", some "hi", none, none, none⟩]⟩ := by
  constructor
  · have h := (trailing_prompt_extraction [⟨"user", some "hello", none, none, none⟩]
      ⟨"user", some "hello", none, none, none⟩ rfl).1 (by decide)
    rw [h]
    rfl
  · exact (trailing_prompt_extraction
      [⟨"user", some "hello", none, none, none⟩,
        ⟨"assistant", some "hi", none, none, none⟩]
      ⟨"assistant", some "hi", none, none, none⟩ rfl).2.1 (by decide)

/-- C7 counterexample: a system message produces no transcript entry at
all in the builder — in particular no `Instructions` entry carrying its
text — refuting "each System-role message becomes an Instructions
transcript entry". -/
theorem system_message_no_entry_counterexample :
    convertMessagesToTranscript [⟨"system", some "be helpful", none, none, none⟩]
      = [] := rfl

/-- C7 (amended): the transcript builder filters System messages out and
never emits an `Instructions` entry; instead, the dispatcher's tools mode
prepends a single `Instructions` entry whose segment carries the first
System message's present content (no segment when empty) and whose tool
definitions are the request's tools — system text and tool definitions
are attached together, and only in tool mode. -/
theorem system_messages_and_instructions (messages : List ChatMessage)
    (contextEntries : List Entry) (tools : List JSProxyToolSpec)
    (systemContent : String) :
    (∀ e ∈ convertMessagesToTranscript messages, e.isInstructions = false)
    ∧ (tools ≠ [] →
      buildToolsModeEntries contextEntries tools systemContent
        = Entry.instructions
            ⟨(if systemContent = "" then [] else [Segment.text systemContent]),
              tools.map (fun t => ⟨t.name, t.description, t.parametersSchema⟩)⟩
          :: contextEntries)
    ∧ toolsModeFinalEntries messages tools contextEntries
        = buildToolsModeEntries contextEntries tools (extractSystemContent messages) := by
  refine ⟨?_, ?_, rfl⟩
  · intro e he
    exact convertLoop_no_instructions
      (messages.filter (fun m => lowercased m.role ≠ "system")) [] e he
  · intro hne
    have hemp : tools.isEmpty = false := by
      cases tools
      · exact absurd rfl hne
      · rfl
    unfold buildToolsModeEntries
    rw [hemp]
    simp

/-- C7 witness: with one tool and system text "be helpful", tools mode
prepends the instructions entry carrying both. -/
theorem system_messages_and_instructions_witness :
    buildToolsModeEntries [] [⟨1, "add", "adds", Json.obj []⟩] "be helpful"
      = [Entry.instructions
          ⟨[Segment.text "be helpful"], [⟨"add", "adds", Json.obj []⟩]⟩] := by
  have h := (system_messages_and_instructions [] []
    [⟨1, "add", "adds", Json.obj []⟩] "be helpful").2.1 (by simp)
  rw [h]
  rfl

/-- The assistant conversion never yields a `ToolOutput` entry. -/
theorem entryToolOutputId_assistant (m : ChatMessage) :
    entryToolOutputId (createAssistantEntry m) = none := by
  rcases createAssistantEntry_class m with ⟨c, hc⟩ | ⟨r, hr⟩
  · rw [hc]
    rfl
  · rw [hr]
    rfl

/-- Unfolding equation for `rawToolOutputIds` on a cons cell. -/
theorem rawToolOutputIds_cons (m : ChatMessage) (rest : List ChatMessage) :
    rawToolOutputIds (m :: rest)
      = (if lowercased m.role = "tool" then toolOutputIds (createToolOutputEntry m) else [])
        ++ rawToolOutputIds rest := rfl

/-- Membership in the seen set produced by the de-duplication filter:
the ids already seen plus the tool-output ids of the processed entries. -/
theorem dedupFilter_seen_mem (es : List Entry) :
    ∀ seen x, x ∈ (dedupFilter es seen).2 ↔ x ∈ seen ∨ x ∈ toolOutputIds es := by
  induction es with
  | nil =>
    intro seen x
    simp [dedupFilter, toolOutputIds]
  | cons a es ih =>
    intro seen x
    unfold dedupFilter
    split
    case h_1 o =>
      have hsome : entryToolOutputId (Entry.toolOutput o) = some o.id := rfl
      by_cases hid : o.id ∈ seen
      · rw [if_pos hid, ih seen x]
        unfold toolOutputIds
        rw [List.filterMap_cons_some hsome]
        constructor
        · rintro (h | h)
          · exact Or.inl h
          · exact Or.inr (List.mem_cons_of_mem _ h)
        · rintro (h | h)
          · exact Or.inl h
          · rcases List.mem_cons.mp h with h | h
            · exact Or.inl (by rw [h]; exact hid)
            · exact Or.inr h
      · rw [if_neg hid]
        show x ∈ (dedupFilter es (o.id :: seen)).2 ↔ _
        rw [ih (o.id :: seen) x]
        unfold toolOutputIds
        rw [List.filterMap_cons_some hsome]
        simp only [List.mem_cons]
        tauto
    case h_2 a2 hne =>
      have hnone : entryToolOutputId a = none := by
        cases a
        · rfl
        · rfl
        · rfl
        · rfl
        · exact absurd rfl (hne _)
      show x ∈ (dedupFilter es seen).2 ↔ _
      rw [ih seen x]
      unfold toolOutputIds
      rw [List.filterMap_cons_none hnone]

/-- Occurrence count of an id among the tool-output entries kept by the
de-duplication filter: zero when already seen, otherwise one exactly when
some processed entry carries it. -/
theorem dedupFilter_count (es : List Entry) :
    ∀ seen x, (toolOutputIds (dedupFilter es seen).1).count x
      = if x ∈ seen then 0 else if x ∈ toolOutputIds es then 1 else 0 := by
  induction es with
  | nil =>
    intro seen x
    simp [dedupFilter, toolOutputIds]
  | cons a es ih =>
    intro seen x
    unfold dedupFilter
    split
    case h_1 o =>
      have hsome : entryToolOutputId (Entry.toolOutput o) = some o.id := rfl
      by_cases hid : o.id ∈ seen
      · rw [if_pos hid, ih seen x]
        unfold toolOutputIds
        rw [List.filterMap_cons_some hsome]
        by_cases hs : x ∈ seen
        · simp [hs]
        · have hxo : ¬ x = o.id := fun h => hs (by rw [h]; exact hid)
          simp [hs, List.mem_cons, hxo]
      · rw [if_neg hid]
        show (toolOutputIds (Entry.toolOutput o :: (dedupFilter es (o.id :: seen)).1)).count x = _
        unfold toolOutputIds
        rw [List.filterMap_cons_some hsome, List.filterMap_cons_some hsome]
        rw [List.count_cons]
        have hrec := ih (o.id :: seen) x
        unfold toolOutputIds at hrec
        rw [hrec]
        by_cases hxo : x = o.id
        · subst hxo
          simp [hid, List.mem_cons]
        · have hox : ¬ o.id = x := fun h => hxo h.symm
          by_cases hs : x ∈ seen
          · simp [hs, hxo, hox, List.mem_cons]
          · simp [hs, hxo, hox, List.mem_cons]
    case h_2 a2 hne =>
      have hnone : entryToolOutputId a = none := by
        cases a
        · rfl
        · rfl
        · rfl
        · rfl
        · exact absurd rfl (hne _)
      show (toolOutputIds (a :: (dedupFilter es seen).1)).count x = _
      unfold toolOutputIds
      rw [List.filterMap_cons_none hnone, List.filterMap_cons_none hnone]
      have hrec := ih seen x
      unfold toolOutputIds at hrec
      rw [hrec]

/-- Occurrence count of an id among the tool-output entries produced by
the conversion loop: zero when already seen, otherwise one exactly when
some record of the messages carries it. -/
theorem convertLoop_count (msgs : List ChatMessage) :
    ∀ seen x, (toolOutputIds (convertLoop msgs seen)).count x
      = if x ∈ seen then 0 else if x ∈ rawToolOutputIds msgs then 1 else 0 := by
  induction msgs with
  | nil =>
    intro seen x
    simp [convertLoop, toolOutputIds, rawToolOutputIds]
  | cons m rest ih =>
    intro seen x
    rw [rawToolOutputIds_cons]
    unfold convertLoop
    by_cases h1 : lowercased m.role = "user"
    · rw [if_pos h1]
      have hcond : ¬ lowercased m.role = "tool" := by
        rw [h1]
        decide
      rw [if_neg hcond, List.nil_append]
      unfold toolOutputIds
      rw [List.filterMap_cons_none
        (rfl : entryToolOutputId (Entry.prompt (createPrompt m)) = none)]
      have hrec := ih seen x
      unfold toolOutputIds at hrec
      rw [hrec]
    · rw [if_neg h1]
      by_cases h2 : lowercased m.role = "assistant"
      · rw [if_pos h2]
        have hcond : ¬ lowercased m.role = "tool" := by
          rw [h2]
          decide
        rw [if_neg hcond, List.nil_append]
        unfold toolOutputIds
        rw [List.filterMap_cons_none (entryToolOutputId_assistant m)]
        have hrec := ih seen x
        unfold toolOutputIds at hrec
        rw [hrec]
      · rw [if_neg h2]
        by_cases h3 : lowercased m.role = "tool"
        · rw [if_pos h3, if_pos h3]
          unfold toolOutputIds
          rw [List.filterMap_append, List.count_append]
          have hded := dedupFilter_count (createToolOutputEntry m) seen x
          unfold toolOutputIds at hded
          rw [hded]
          have hrec := ih (dedupFilter (createToolOutputEntry m) seen).2 x
          unfold toolOutputIds at hrec
          rw [hrec]
          have hseen := dedupFilter_seen_mem (createToolOutputEntry m) seen x
          unfold toolOutputIds at hseen
          simp only [hseen]
          by_cases hs : x ∈ seen <;>
            by_cases hc : x ∈ List.filterMap entryToolOutputId (createToolOutputEntry m) <;>
              by_cases hr : x ∈ rawToolOutputIds rest <;>
                simp [hs, hc, hr, List.mem_append]
        · rw [if_neg h3, if_neg h3, List.nil_append]
          unfold toolOutputIds
          rw [List.filterMap_cons_none
            (rfl : entryToolOutputId (Entry.prompt (createPrompt m)) = none)]
          have hrec := ih seen x
          unfold toolOutputIds at hrec
          rw [hrec]

/-- Filtering system messages out does not change the carried record ids
(system messages never reach the `tool` branch). -/
theorem rawToolOutputIds_filter_system (messages : List ChatMessage) :
    rawToolOutputIds (messages.filter (fun m => lowercased m.role ≠ "system"))
      = rawToolOutputIds messages := by
  induction messages with
  | nil => rfl
  | cons m rest ih =>
    rw [List.filter_cons]
    by_cases hsys : lowercased m.role ≠ "system"
    · rw [if_pos (decide_eq_true hsys)]
      rw [rawToolOutputIds_cons, rawToolOutputIds_cons, ih]
    · rw [if_neg (fun h => hsys (of_decide_eq_true h))]
      rw [ih]
      have hm : lowercased m.role = "system" := not_not.mp hsys
      have hcond : ¬ lowercased m.role = "tool" := by
        rw [hm]
        decide
      rw [rawToolOutputIds_cons, if_neg hcond, List.nil_append]

/-- C8: within a single transcript build, tool-output records with
identical id — whether carried by two tool messages or by one — yield
exactly one `ToolOutput` entry for that id (one when any record carries
it, none otherwise), so every later record whose id was already emitted
in the build is dropped and no id ever appears twice. -/
theorem tool_output_dedup (messages : List ChatMessage) (id : String) :
    ((toolOutputIds (convertMessagesToTranscript messages)).count id
      = if id ∈ rawToolOutputIds messages then 1 else 0)
    ∧ (toolOutputIds (convertMessagesToTranscript messages)).count id ≤ 1 := by
  have h := convertLoop_count
    (messages.filter (fun m => lowercased m.role ≠ "system")) [] id
  rw [rawToolOutputIds_filter_system messages] at h
  have hmain : (toolOutputIds (convertMessagesToTranscript messages)).count id
      = if id ∈ rawToolOutputIds messages then 1 else 0 := by
    unfold convertMessagesToTranscript
    rw [h]
    simp
  refine ⟨hmain, ?_⟩
  rw [hmain]
  split_ifs <;> omega

/-- C8 witness: two tool messages carrying the same record id `a`
produce exactly one tool-output entry for `a`. -/
theorem tool_output_dedup_witness :
    (toolOutputIds (convertMessagesToTranscript
      [⟨"tool", some "\x7b\"tool_calls\":[\x7b\"id\":\"a\",\"toolName\":\"t\",\"segments\":[]\x7d]\x7d",
          none, none, none⟩,
        ⟨"tool", some "\x7b\"tool_calls\":[\x7b\"id\":\"a\",\"toolName\":\"t\",\"segments\":[]\x7d]\x7d",
          none, none, none⟩])).count "a" = 1 := by
  rw [(tool_output_dedup
    [⟨"tool", some "\x7b\"tool_calls\":[\x7b\"id\":\"a\",\"toolName\":\"t\",\"segments\":[]\x7d]\x7d",
        none, none, none⟩,
      ⟨"tool", some "\x7b\"tool_calls\":[\x7b\"id\":\"a\",\"toolName\":\"t\",\"segments\":[]\x7d]\x7d",
        none, none, none⟩] "a").1]
  rfl

end AppleOnDeviceAI
